import Mathlib

/-!
Verification development for the ClassTracker participation-tracking
application.  The definitions below are shallow embeddings of the
client-side aggregation code in `src/components/ReportsPage.tsx`, the
point-award flow of the class tracking page, the `AddNoteModal`
component, the `send-feedback-email` edge function and the
`update_student_points` database trigger.  JavaScript arrays become
`List`, joined rows become record fields of type `Option`, machine
numbers become `Int`/`Nat`, and the stable `Array.prototype.sort`
(stable per ES2019) is modelled by `List.insertionSort`, which is also a
stable sort, so both produce the identical output list for a total
preorder comparator.
-/

namespace ClassTracker

/-- A row of `participation_logs` as fetched by the reports page, with the
eagerly joined `students.name` and `participation_categories.name`
columns.  The joins are outer joins in the select, hence `Option`. -/
structure LogRow where
  student_id : String
  category_id : String
  points : Int
  is_positive : Bool
  created_at : String
  student_name : Option String
  cat_name : Option String
deriving DecidableEq, Repr

/-- A row of `participation_categories`. -/
structure Category where
  id : String
  name : String
  is_positive : Bool
deriving DecidableEq, Repr

/-- A row of `students` (the columns the reports page uses). -/
structure Student where
  id : String
  name : String
  total_positive_points : Int
  total_negative_points : Int
deriving DecidableEq, Repr

/-- Embeds `logs.reduce((s, l) => s + l.points, 0)` from `calculateReportData`. -/
def sumPoints (ls : List LogRow) : Int :=
  ls.foldl (fun s l => s + l.points) 0

/-- Embeds `logs?.filter(l => l.is_positive)` in `calculateReportData`. -/
def positiveLogs (logs : List LogRow) : List LogRow :=
  logs.filter (fun l => l.is_positive)

/-- Embeds `logs?.filter(l => !l.is_positive)` in `calculateReportData`. -/
def allNegative (logs : List LogRow) : List LogRow :=
  logs.filter (fun l => !l.is_positive)

/-- Embeds `allNegative.filter(l => l.participation_categories?.name === 'Teacher Note')`. -/
def teacherNotesLogs (logs : List LogRow) : List LogRow :=
  (allNegative logs).filter (fun l => l.cat_name == some "Teacher Note")

/-- Embeds `allNegative.filter(l => l.participation_categories?.name !== 'Teacher Note')`. -/
def behavioralAlertLogs (logs : List LogRow) : List LogRow :=
  (allNegative logs).filter (fun l => l.cat_name != some "Teacher Note")

/-- Embeds `totalPositive` in `calculateReportData`. -/
def totalPositivePoints (logs : List LogRow) : Int :=
  sumPoints (positiveLogs logs)

/-- Embeds `totalNegative` in `calculateReportData`. -/
def totalNegativePoints (logs : List LogRow) : Int :=
  sumPoints (behavioralAlertLogs logs)

/-- Embeds `l.students?.name || 'Unknown'` in the breakdown loop (JS `||` also
replaces the empty string). -/
def joinedStudentName (l : LogRow) : String :=
  match l.student_name with
  | some n => if n = "" then "Unknown" else n
  | none => "Unknown"

/-- Embeds `categories.filter(c => !c.is_positive && c.name !== 'Teacher Note')`. -/
def negCats (categories : List Category) : List Category :=
  categories.filter (fun c => !c.is_positive && c.name != "Teacher Note")

/-- Embeds `behavioralAlertLogs.filter(l => l.category_id === cat.id)`. -/
def logsForCat (cat : Category) (behavioral : List LogRow) : List LogRow :=
  behavioral.filter (fun l => l.category_id == cat.id)

/-- An entry of the per-category `counts` map (`Map<string, number>`). -/
structure StudentCount where
  name : String
  count : Nat
deriving DecidableEq, Repr

/-- Embeds `counts.set(n, (counts.get(n) || 0) + 1)`: a JS `Map` keeps the
original insertion position of an updated key, so the association list
bumps the existing entry in place or appends a fresh one. -/
def bump (n : String) : List StudentCount → List StudentCount
  | [] => [⟨n, 1⟩]
  | e :: rest => if e.name = n then ⟨e.name, e.count + 1⟩ :: rest else e :: bump n rest

/-- The `counts` map built by `logsForCat.forEach`, keyed in insertion
order as `Array.from(counts.entries())` returns it. -/
def studentCounts (names : List String) : List StudentCount :=
  names.foldl (fun acc n => bump n acc) []

/-- Embeds `.sort((a, b) => b.count - a.count)` on the per-student counts:
JS `Array.prototype.sort` is stable, and `List.insertionSort` with the
matching total preorder produces the same (unique) stable sorted list. -/
def sortByCountDesc (xs : List StudentCount) : List StudentCount :=
  List.insertionSort (fun a b => b.count ≤ a.count) xs

/-- One element of `categoryBreakdown` in `calculateReportData`. -/
structure BreakdownEntry where
  category : Category
  count : Nat
  students : List StudentCount
deriving DecidableEq, Repr

/-- The body of the `.map(cat => ...)` over the filtered categories. -/
def breakdownEntry (logs : List LogRow) (cat : Category) : BreakdownEntry :=
  let lfc := logsForCat cat (behavioralAlertLogs logs)
  ⟨cat, lfc.length, sortByCountDesc (studentCounts (lfc.map joinedStudentName))⟩

/-- Embeds `categoryBreakdown` of `calculateReportData`: all negative non-note
categories mapped to their entries, sorted descending by count
(`.sort((a, b) => b.count - a.count)`, again a stable sort). -/
def categoryBreakdown (categories : List Category) (logs : List LogRow) :
    List BreakdownEntry :=
  List.insertionSort (fun a b => b.count ≤ a.count)
    ((negCats categories).map (breakdownEntry logs))

/-- An element of `allStudentsWithPoints` computed by
`calculateReportData` with `includeStudentPoints = true`. -/
structure RankedStudent where
  student : Student
  positivePoints : Int
  negativePoints : Int
deriving DecidableEq, Repr

/-- Embeds `allStudentsWithPoints`: per student, the windowed positive points and
the windowed negative non-note points. -/
def allStudentsWithPoints (logs : List LogRow) (studentsToAnalyze : List Student) :
    List RankedStudent :=
  studentsToAnalyze.map (fun s =>
    let studentLogs := logs.filter (fun l => l.student_id == s.id)
    ⟨s, sumPoints (studentLogs.filter (fun l => l.is_positive)),
        sumPoints (studentLogs.filter
          (fun l => !l.is_positive && l.cat_name != some "Teacher Note"))⟩)

/-- The comparator of the rank sort in `getAnalyticsData`:
`b.positivePoints - a.positivePoints` when unequal, else
`a.student.name.localeCompare(b.student.name)`.  `rankRel a b` says the
comparator allows `a` at or before `b`. -/
def rankRel (a b : RankedStudent) : Prop :=
  b.positivePoints < a.positivePoints ∨
    (a.positivePoints = b.positivePoints ∧ a.student.name ≤ b.student.name)

instance : DecidableRel rankRel := fun a b => by
  unfold rankRel
  infer_instance

instance : IsTotal RankedStudent rankRel := by
  constructor
  intro a b
  unfold rankRel
  rcases lt_trichotomy a.positivePoints b.positivePoints with h | h | h
  · exact Or.inr (Or.inl h)
  · rcases le_total a.student.name b.student.name with hn | hn
    · exact Or.inl (Or.inr ⟨h, hn⟩)
    · exact Or.inr (Or.inr ⟨h.symm, hn⟩)
  · exact Or.inl (Or.inl h)

instance : IsTrans RankedStudent rankRel := by
  constructor
  intro a b c hab hbc
  unfold rankRel at *
  rcases hab with h1 | ⟨h1, hn1⟩ <;> rcases hbc with h2 | ⟨h2, hn2⟩
  · exact Or.inl (h2.trans h1)
  · exact Or.inl (h2 ▸ h1)
  · exact Or.inl (h1 ▸ h2)
  · exact Or.inr ⟨h1.trans h2, hn1.trans hn2⟩

/-- Embeds `sortedStudents` in `getAnalyticsData` (JS stable sort modelled by the
stable `insertionSort`). -/
def sortedStudents (xs : List RankedStudent) : List RankedStudent :=
  List.insertionSort rankRel xs

/-- Embeds `sortedStudents.findIndex(s => s.student.id === selectedStudentId) + 1`. -/
def studentRank (xs : List RankedStudent) (sid : String) : Nat :=
  (sortedStudents xs).findIdx (fun e => e.student.id == sid) + 1

/-- The eight hard-coded flag-category column names of `exportReport`.
The first name contains the non-breaking hyphen U+2011 exactly as the
source does; the other hyphens are ASCII. -/
def flagCategories : List String :=
  ["No Feedback‑Seeking / Use", "Passive Participation", "Off-Task / Distracted",
   "Inauthentic Work", "Not Following Directions", "Needs Support to Engage",
   "Unprepared for Class", "Low Effort / Incomplete Work"]

/-- The count the `flagCountsByCategory` map of `exportReport` holds for
column `c` after the counting loop: student logs that are negative, not
`'Teacher Note'`, and whose joined category name is exactly `c` (the map
has exactly the eight fixed keys, so `hasOwnProperty` admits only exact
name matches; the `categoryName &&` truthiness guard is subsumed because
every column name is non-empty). -/
def csvFlagCount (s : Student) (logs : List LogRow) (c : String) : Nat :=
  ((logs.filter (fun l => l.student_id == s.id)).filter
    (fun l => !l.is_positive && l.cat_name != some "Teacher Note"
      && l.cat_name == some c)).length

/-- Embeds `positivePoints` of one student in `exportReport`. -/
def studentPositivePoints (s : Student) (logs : List LogRow) : Int :=
  sumPoints ((logs.filter (fun l => l.student_id == s.id)).filter
    (fun l => l.is_positive))

/-- One body row of the CSV, in the exact column order of the source. -/
def csvRow (s : Student) (logs : List LogRow) : List String :=
  s.name :: toString (studentPositivePoints s logs)
    :: flagCategories.map (fun c => toString (csvFlagCount s logs c))

/-- Embeds `headerRow1`: the class name padded to the ten columns. -/
def headerRow1 (className : String) : List String :=
  [className, "", "", "", "", "", "", "", "", ""]

/-- Embeds `headerRow2`: the date-range label followed by the column names. -/
def headerRow2 (dateRangeString : String) : List String :=
  dateRangeString :: "Points" :: flagCategories

/-- Embeds `csvData` of `exportReport`: the two header rows then one row per
student of the class. -/
def csvData (className dateRangeString : String) (students : List Student)
    (logs : List LogRow) : List (List String) :=
  headerRow1 className :: headerRow2 dateRangeString
    :: students.map (fun s => csvRow s logs)

/-- Embeds `csvContent`: every cell double-quoted, cells comma-joined, rows
newline-joined. -/
def csvContent (className dateRangeString : String) (students : List Student)
    (logs : List LogRow) : String :=
  String.intercalate "\n"
    ((csvData className dateRangeString students logs).map
      (fun row => String.intercalate "," (row.map (fun cell => "\"" ++ cell ++ "\""))))

/-- The five negative category names the migration
`20250705174852_ancient_waterfall.sql` seeds. -/
def seededNegativeCategoryNames : List String :=
  ["Talking/Disrupting Class", "Disrespectful Attitude", "Off-Task",
   "Not Following Instructions/Class Rules", "Unprepared for Class"]

/-- One element of `dailyData` in `calculateReportData`. -/
structure DailyEntry where
  date : String
  positive : Int
  negative : Int
deriving DecidableEq, Repr

/-- The 7-day daily-trend loop of `calculateReportData`.  The loop runs
`i = 6 .. 0`; `dayKey i` stands for the code value
`new Date(today minus i days).toISOString().split(T)[0]` and `dayLabel i`
for the weekday label of the same date — both parameters here because the
code reads the wall clock. -/
def dailyData (dayKey dayLabel : Nat → String) (logs : List LogRow) :
    List DailyEntry :=
  (List.range 7).map (fun k =>
    let i := 6 - k
    let dayLogs := (positiveLogs logs ++ behavioralAlertLogs logs).filter
      (fun l => l.created_at.startsWith (dayKey i))
    { date := dayLabel i,
      positive := sumPoints (dayLogs.filter (fun l => l.is_positive)),
      negative := sumPoints (dayLogs.filter (fun l => !l.is_positive)) })

/-- The modal state of the participation-tracking page: which modal is
open (`showPointModal` / `showCategoryModal` / `showNoteModal`) together
with `selectedStudent` and, for the category modal, `selectedPoints`. -/
inductive UIState where
  | idle : UIState
  | pointModal (student : Student) : UIState
  | categoryModal (student : Student) (selectedPoints : Int) : UIState
  | noteModal (student : Student) : UIState
deriving DecidableEq, Repr

/-- A row as inserted into `participation_logs` by `handleAddPoints` or
`handleSaveNote`. -/
structure NewLog where
  student_id : String
  category_id : String
  points : Int
  is_positive : Bool
  notes : Option String
deriving DecidableEq, Repr

/-- Page state: the open modal plus the inserted log rows. -/
structure TrackState where
  ui : UIState
  logs : List NewLog
deriving DecidableEq, Repr

/-- The user interactions of the flow. -/
inductive TrackEvent where
  | clickStudent (s : Student)
  | selectPoints (points : Int) (isPositive : Bool)
  | clickFlagButton
  | clickAddNote
  | selectCategory (c : Category)
  | saveNote (text : String)
  | cancel
deriving DecidableEq, Repr

/-- The `noteText.trim()` call of `handleSaveNote`: strip leading and
trailing whitespace (structural form of the JS trim). -/
def jsTrim (s : String) : String :=
  String.mk ((s.data.dropWhile Char.isWhitespace).reverse.dropWhile
    Char.isWhitespace).reverse

/-- One step of the point-award flow, transcribing `handleStudentClick`,
`handlePointSelection`, `handleAddPoints`, `handleCategorySelection`, the
flag and note buttons, `handleSaveNote` of `AddNoteModal`, and the cancel
and close handlers.  `defaultPosCat` is the category the
`eq(is_positive, isPositive).limit(1)` query returns for a positive
award; `tnCat` is the category the `eq(name, Teacher Note)` query of
`AddNoteModal` returns. -/
def trackStep (defaultPosCat tnCat : Category) (st : TrackState)
    (e : TrackEvent) : TrackState :=
  match st.ui, e with
  | .idle, .clickStudent s => ⟨.pointModal s, st.logs⟩
  | .pointModal s, .selectPoints pts b =>
      if b then
        ⟨.idle, st.logs ++ [⟨s.id, defaultPosCat.id, pts, true, none⟩]⟩
      else
        ⟨.categoryModal s pts, st.logs⟩
  | .pointModal s, .clickFlagButton => ⟨.categoryModal s 1, st.logs⟩
  | .pointModal s, .clickAddNote => ⟨.noteModal s, st.logs⟩
  | .categoryModal s pts, .selectCategory c =>
      ⟨.idle, st.logs ++ [⟨s.id, c.id, pts, false, none⟩]⟩
  | .noteModal s, .saveNote text =>
      if jsTrim text = "" then st
      else ⟨.idle, st.logs ++ [⟨s.id, tnCat.id, 0, false, some (jsTrim text)⟩]⟩
  | _, .cancel => ⟨.idle, st.logs⟩
  | _, _ => st

/-- A student row as the trigger sees it. -/
structure StudentRow where
  id : String
  total_positive_points : Int
  total_negative_points : Int
deriving DecidableEq, Repr

/-- A `participation_logs` row as the trigger sees it. -/
structure DBLog where
  id : String
  student_id : String
  points : Int
  is_positive : Bool
deriving DecidableEq, Repr

/-- The database state the trigger maintains. -/
structure DB where
  students : List StudentRow
  logs : List DBLog
deriving DecidableEq, Repr

/-- Embeds `ls.reduce`-style sum of `points` over database log rows. -/
def dbSumPoints (ls : List DBLog) : Int :=
  ls.foldl (fun s l => s + l.points) 0

/-- The `TG_OP = INSERT` branch of `update_student_points`: add
`NEW.points` to the matching counter of the row with
`id = NEW.student_id`. -/
def applyInsertTrigger (l : DBLog) (students : List StudentRow) : List StudentRow :=
  students.map (fun s =>
    if s.id = l.student_id then
      if l.is_positive then
        { s with total_positive_points := s.total_positive_points + l.points }
      else
        { s with total_negative_points := s.total_negative_points + l.points }
    else s)

/-- The `TG_OP = DELETE` branch of `update_student_points`: subtract
`OLD.points` from the matching counter. -/
def applyDeleteTrigger (l : DBLog) (students : List StudentRow) : List StudentRow :=
  students.map (fun s =>
    if s.id = l.student_id then
      if l.is_positive then
        { s with total_positive_points := s.total_positive_points - l.points }
      else
        { s with total_negative_points := s.total_negative_points - l.points }
    else s)

/-- Insert one log row; the `AFTER INSERT ... FOR EACH ROW` trigger fires
once for it. -/
def insertLog (db : DB) (l : DBLog) : DB :=
  { students := applyInsertTrigger l db.students, logs := db.logs ++ [l] }

/-- Delete the rows with the given log id; the `AFTER DELETE ... FOR EACH
ROW` trigger fires once per deleted row. -/
def deleteLog (db : DB) (lid : String) : DB :=
  { students := (db.logs.filter (fun l => l.id == lid)).foldl
      (fun ss l => applyDeleteTrigger l ss) db.students,
    logs := db.logs.filter (fun l => l.id != lid) }

/-- An insert or delete against `participation_logs`. -/
inductive DBOp where
  | ins (l : DBLog)
  | del (lid : String)
deriving DecidableEq, Repr

def applyOp (db : DB) (op : DBOp) : DB :=
  match op with
  | .ins l => insertLog db l
  | .del lid => deleteLog db lid

def applyOps (db : DB) (ops : List DBOp) : DB :=
  ops.foldl applyOp db

/-- The invariant of the denormalised counters: every student row carries
exactly the per-sign sums of its log rows. -/
def consistent (db : DB) : Prop :=
  ∀ s ∈ db.students,
    s.total_positive_points
        = dbSumPoints (db.logs.filter (fun l => l.student_id == s.id && l.is_positive))
      ∧ s.total_negative_points
        = dbSumPoints (db.logs.filter (fun l => l.student_id == s.id && !l.is_positive))

instance (db : DB) : Decidable (consistent db) := by
  unfold consistent
  infer_instance

/-- The destructured JSON body of a feedback request; a field absent from
the JSON is `none` (JS `undefined`). -/
structure FeedbackBody where
  name : Option String
  email : Option String
  message : Option String
  survey : Option String
deriving DecidableEq, Repr

/-- Embeds `req.json()`: either a parsed body, or a throw on malformed
JSON, which the surrounding try/catch turns into the 500 response. -/
inductive ReqBody where
  | malformed
  | json (b : FeedbackBody)
deriving DecidableEq, Repr

/-- The parts of a request the handler inspects. -/
structure Request where
  method : String
  body : ReqBody
deriving DecidableEq, Repr

/-- An HTTP response as the handler constructs it. -/
structure Response where
  status : Nat
  body : String
  headers : List (String × String)
deriving DecidableEq, Repr

/-- The fixed `corsHeaders` object of the function. -/
def corsHeaders : List (String × String) :=
  [("Access-Control-Allow-Origin", "*"),
   ("Access-Control-Allow-Headers", "authorization, x-client-info, apikey, content-type")]

/-- Embeds the header spread `... corsHeaders` plus
`Content-Type: application/json` put on every JSON response. -/
def jsonHeaders : List (String × String) :=
  corsHeaders ++ [("Content-Type", "application/json")]

/-- JS falsiness of a destructured string field (`!name`): `undefined` or
the empty string. -/
def falsy : Option String → Bool
  | none => true
  | some s => s == ""

/-- What one invocation produced: the response, and whether the `fetch`
to the transactional email provider was reached. -/
structure ServeResult where
  response : Response
  contactedProvider : Bool
deriving DecidableEq, Repr

/-- The `serve` handler of `send-feedback-email/index.ts`.  `apiKey` is
`Deno.env.get(EMAIL_API_KEY)`; `providerOk` says whether the provider
call succeeds.  The forwarded email text itself is not modelled — no
claim concerns its content. -/
def handleFeedbackRequest (req : Request) (apiKey : Option String)
    (providerOk : Bool) : ServeResult :=
  if req.method == "OPTIONS" then
    ⟨⟨200, "ok", corsHeaders⟩, false⟩
  else
    match req.body with
    | .malformed =>
        ⟨⟨500, "\x7b\"error\":\"Internal server error\"\x7d", jsonHeaders⟩, false⟩
    | .json b =>
        if falsy b.name || falsy b.email then
          ⟨⟨400, "\x7b\"error\":\"Name and email are required\"\x7d", jsonHeaders⟩, false⟩
        else
          match apiKey with
          | none =>
              ⟨⟨500, "\x7b\"error\":\"Email service not configured\"\x7d", jsonHeaders⟩, false⟩
          | some _ =>
              if providerOk then
                ⟨⟨200, "\x7b\"success\":true,\"message\":\"Email sent successfully\"\x7d",
                  jsonHeaders⟩, true⟩
              else
                ⟨⟨500, "\x7b\"error\":\"Failed to send email\"\x7d", jsonHeaders⟩, true⟩

/- Generic fold lemmas for the `reduce`-style sums. -/
theorem sumPoints_eq_sum_map (ls : List LogRow) :
    sumPoints ls = (ls.map (fun l => l.points)).sum := by
  have h : ∀ (t : List LogRow) (s : Int),
      t.foldl (fun a l => a + l.points) s = s + (t.map (fun l => l.points)).sum := by
    intro t
    induction t with
    | nil => simp
    | cons x xs ih => intro s; simp [List.foldl_cons, ih, add_assoc]
  simpa using h ls 0

theorem sumPoints_cons (l : LogRow) (ls : List LogRow) :
    sumPoints (l :: ls) = l.points + sumPoints ls := by
  simp [sumPoints_eq_sum_map]

theorem sumPoints_append (xs ys : List LogRow) :
    sumPoints (xs ++ ys) = sumPoints xs + sumPoints ys := by
  simp [sumPoints_eq_sum_map]

/-- C1: the reported `totalPositivePoints` sums the points of exactly the
logs with `is_positive` true, `totalNegativePoints` sums the points of
exactly the logs with `is_positive` false whose joined category name is
not `'Teacher Note'`, and — since note rows are written with
`is_positive: false` (the hypothesis) — removing all `'Teacher Note'`
rows changes neither total. -/
theorem c1_report_totals (logs : List LogRow)
    (hTN : ∀ l ∈ logs, l.cat_name = some "Teacher Note" → l.is_positive = false) :
    totalPositivePoints logs
        = sumPoints (logs.filter (fun l => l.is_positive)) ∧
    totalNegativePoints logs
        = sumPoints (logs.filter (fun l => !l.is_positive && l.cat_name != some "Teacher Note")) ∧
    totalPositivePoints (logs.filter (fun l => l.cat_name != some "Teacher Note"))
        = totalPositivePoints logs ∧
    totalNegativePoints (logs.filter (fun l => l.cat_name != some "Teacher Note"))
        = totalNegativePoints logs := by
  refine ⟨rfl, ?_, ?_, ?_⟩
  · simp [totalNegativePoints, behavioralAlertLogs, allNegative, List.filter_filter,
      Bool.and_comm]
  · unfold totalPositivePoints positiveLogs
    rw [List.filter_filter]
    congr 1
    apply List.filter_congr
    intro l hl
    by_cases hp : l.is_positive
    · have : l.cat_name ≠ some "Teacher Note" := by
        intro hc
        have := hTN l hl hc
        simp [this] at hp
      simp [hp, this]
    · simp [hp]
  · unfold totalNegativePoints behavioralAlertLogs allNegative
    rw [List.filter_filter, List.filter_filter, List.filter_filter]
    congr 1
    apply List.filter_congr
    intro l _
    by_cases hc : l.cat_name = some "Teacher Note" <;> simp [hc]

/-- Witness for C1 at a concrete log list. -/
theorem c1_report_totals_witness :
    totalPositivePoints
        [⟨"s1", "c1", 3, true, "2025-01-01T00:00:00Z", some "A", some "Excellent Participation"⟩,
         ⟨"s1", "c2", 1, false, "2025-01-01T00:00:00Z", some "A", some "Off-Task / Distracted"⟩,
         ⟨"s1", "c3", 0, false, "2025-01-01T00:00:00Z", some "A", some "Teacher Note"⟩]
      = 3 := by
  have h := c1_report_totals
    [⟨"s1", "c1", 3, true, "2025-01-01T00:00:00Z", some "A", some "Excellent Participation"⟩,
     ⟨"s1", "c2", 1, false, "2025-01-01T00:00:00Z", some "A", some "Off-Task / Distracted"⟩,
     ⟨"s1", "c3", 0, false, "2025-01-01T00:00:00Z", some "A", some "Teacher Note"⟩]
    (by decide)
  rw [h.1]
  decide

/- Counting lemmas for C5: every behavioral log falls into exactly one
category bucket when category ids are distinct. -/
theorem countP_key_eq_one (cats : List Category) (k : String)
    (hn : (cats.map (fun c => c.id)).Nodup) (hex : ∃ c ∈ cats, c.id = k) :
    cats.countP (fun c => k == c.id) = 1 := by
  induction cats with
  | nil => rcases hex with ⟨c, hc, _⟩; cases hc
  | cons x xs ih =>
    rw [List.map_cons, List.nodup_cons] at hn
    rcases hn with ⟨hx, hxs⟩
    by_cases hk : x.id = k
    · have hzero : xs.countP (fun c => k == c.id) = 0 := by
        rw [List.countP_eq_zero]
        intro c hc
        simp only [beq_iff_eq]
        intro hck
        exact hx (List.mem_map.mpr ⟨c, hc, by rw [hk]; exact hck.symm⟩)
      simp [List.countP_cons, hk, hzero]
    · rcases hex with ⟨c, hc, hck⟩
      rcases List.mem_cons.mp hc with h1 | h1
      · exact absurd (h1 ▸ hck) hk
      · have := ih hxs ⟨c, h1, hck⟩
        simp only [List.countP_cons, this]
        have : (k == x.id) = false := by
          simp only [beq_eq_false_iff_ne]
          exact fun h => hk h.symm
        simp [this]

theorem sum_filter_lengths_cons (cats : List Category) (l : LogRow) (t : List LogRow) :
    (cats.map (fun c => ((l :: t).filter (fun x => x.category_id == c.id)).length)).sum
      = (cats.map (fun c => (t.filter (fun x => x.category_id == c.id)).length)).sum
        + cats.countP (fun c => l.category_id == c.id) := by
  induction cats with
  | nil => simp
  | cons x xs ih =>
    simp only [List.map_cons, List.sum_cons, List.countP_cons]
    rw [ih]
    by_cases h : (l.category_id == x.id) = true
    · simp only [List.filter_cons, h, if_true, List.length_cons]
      omega
    · simp [List.filter_cons, h]
      omega

theorem sum_counts (cats : List Category) (ls : List LogRow)
    (hn : (cats.map (fun c => c.id)).Nodup)
    (hex : ∀ l ∈ ls, ∃ c ∈ cats, c.id = l.category_id) :
    (cats.map (fun c => (ls.filter (fun x => x.category_id == c.id)).length)).sum
      = ls.length := by
  induction ls with
  | nil => simp
  | cons l t ih =>
    rw [sum_filter_lengths_cons,
      ih (fun x hx => hex x (List.mem_cons_of_mem _ hx)),
      countP_key_eq_one cats l.category_id hn (hex l (List.mem_cons_self _ _))]
    simp

/-- C5: the breakdown counts, summed over all breakdown categories, equal
the number of negative non-note logs in the analysed window, provided the
fetched categories have distinct ids and every such log joins to a
fetched negative category. -/
theorem c5_breakdown_count_sum (categories : List Category) (logs : List LogRow)
    (hids : (categories.map (fun c => c.id)).Nodup)
    (hjoin : ∀ l ∈ logs, l.is_positive = false → l.cat_name ≠ some "Teacher Note" →
      ∃ c ∈ categories, c.id = l.category_id ∧ c.is_positive = false ∧
        l.cat_name = some c.name) :
    ((categoryBreakdown categories logs).map (fun e => e.count)).sum
      = (logs.filter (fun l => !l.is_positive && l.cat_name != some "Teacher Note")).length := by
  have hperm : List.Perm (categoryBreakdown categories logs)
      ((negCats categories).map (breakdownEntry logs)) :=
    List.perm_insertionSort _ _
  rw [(hperm.map (fun e => e.count)).sum_eq]
  rw [List.map_map]
  have hmap : ((fun e => e.count) ∘ breakdownEntry logs)
      = fun c => ((behavioralAlertLogs logs).filter
          (fun l => l.category_id == c.id)).length := by
    funext c
    simp [breakdownEntry, logsForCat]
  rw [hmap]
  have hsub : List.Sublist (negCats categories) categories := by
    unfold negCats
    exact List.filter_sublist _
  have hn' : ((negCats categories).map (fun c => c.id)).Nodup :=
    hids.sublist (hsub.map _)
  have hex : ∀ l ∈ behavioralAlertLogs logs,
      ∃ c ∈ negCats categories, c.id = l.category_id := by
    intro l hl
    have h1 : l ∈ logs.filter (fun x => !x.is_positive) :=
      List.mem_of_mem_filter hl
    have hmem : l ∈ logs := List.mem_of_mem_filter h1
    have hneg : l.is_positive = false := by
      have := List.of_mem_filter h1
      simpa using this
    have hnotTN : l.cat_name ≠ some "Teacher Note" := by
      have := List.of_mem_filter hl
      simpa using this
    rcases hjoin l hmem hneg hnotTN with ⟨c, hc, hcid, hcneg, hcname⟩
    refine ⟨c, ?_, hcid⟩
    rw [negCats, List.mem_filter]
    refine ⟨hc, ?_⟩
    have hcn : c.name ≠ "Teacher Note" := by
      intro h
      exact hnotTN (by rw [hcname, h])
    simp [hcneg, hcn]
  rw [sum_counts _ _ hn' hex]
  unfold behavioralAlertLogs allNegative
  rw [List.filter_filter]
  congr 1
  apply List.filter_congr
  intro l _
  simp [Bool.and_comm]

/-- Witness for C5 at a concrete category list and log list. -/
theorem c5_breakdown_count_sum_witness :
    ((categoryBreakdown
        [⟨"c1", "Off-Task / Distracted", false⟩, ⟨"c2", "Teacher Note", false⟩]
        [⟨"s1", "c1", 1, false, "2025-01-01T00:00:00Z", some "A", some "Off-Task / Distracted"⟩,
         ⟨"s1", "c2", 0, false, "2025-01-01T00:00:00Z", some "A", some "Teacher Note"⟩]).map
        (fun e => e.count)).sum = 1 := by
  have h := c5_breakdown_count_sum
    [⟨"c1", "Off-Task / Distracted", false⟩, ⟨"c2", "Teacher Note", false⟩]
    [⟨"s1", "c1", 1, false, "2025-01-01T00:00:00Z", some "A", some "Off-Task / Distracted"⟩,
     ⟨"s1", "c2", 0, false, "2025-01-01T00:00:00Z", some "A", some "Teacher Note"⟩]
    (by decide) (by decide)
  rw [h]
  decide

/- Lemmas for the C7 scenario: a three-log category with names A, A, B
in any order yields the counts list [(A, 2), (B, 1)] after sorting. -/
theorem length_eq_count_add_count (l : List String)
    (h : ∀ n ∈ l, n = "A" ∨ n = "B") :
    l.length = l.count "A" + l.count "B" := by
  induction l with
  | nil => simp
  | cons x t ih =>
    have hx := h x (List.mem_cons_self _ _)
    have ht := ih (fun n hn => h n (List.mem_cons_of_mem _ hn))
    rcases hx with h1 | h1 <;> subst h1 <;>
      simp [List.count_cons, ht] <;> omega

theorem counts_scenario (l : List String)
    (hA : l.count "A" = 2) (hB : l.count "B" = 1)
    (hall : ∀ n ∈ l, n = "A" ∨ n = "B") :
    sortByCountDesc (studentCounts l) = [⟨"A", 2⟩, ⟨"B", 1⟩] := by
  have hlen : l.length = 3 := by
    rw [length_eq_count_add_count l hall, hA, hB]
  obtain ⟨a, b, c, rfl⟩ := List.length_eq_three.mp hlen
  have ha := hall a (by simp)
  have hb := hall b (by simp)
  have hc := hall c (by simp)
  rcases ha with rfl | rfl <;> rcases hb with rfl | rfl <;> rcases hc with rfl | rfl <;>
    (revert hA hB; decide)

/-- C7: if in the analysed window the category `'Off-Task / Distracted'`
is logged twice for student A and once for student B and for no other
student, its breakdown entry has count 3 and the students list
[(A, 2), (B, 1)], sorted descending by count. -/
theorem c7_offtask_scenario (categories : List Category) (logs : List LogRow)
    (cat : Category) (hmem : cat ∈ categories) (hneg : cat.is_positive = false)
    (hname : cat.name = "Off-Task / Distracted")
    (hA : ((logsForCat cat (behavioralAlertLogs logs)).map joinedStudentName).count "A" = 2)
    (hB : ((logsForCat cat (behavioralAlertLogs logs)).map joinedStudentName).count "B" = 1)
    (hall : ∀ n ∈ (logsForCat cat (behavioralAlertLogs logs)).map joinedStudentName,
      n = "A" ∨ n = "B") :
    ∃ e ∈ categoryBreakdown categories logs,
      e.category = cat ∧ e.count = 3 ∧ e.students = [⟨"A", 2⟩, ⟨"B", 1⟩] := by
  have hcat : cat ∈ negCats categories := by
    rw [negCats, List.mem_filter]
    exact ⟨hmem, by simp [hneg, hname]⟩
  have hlen : (logsForCat cat (behavioralAlertLogs logs)).length = 3 := by
    have h1 : ((logsForCat cat (behavioralAlertLogs logs)).map joinedStudentName).length = 3 := by
      rw [length_eq_count_add_count _ hall, hA, hB]
    simpa using h1
  refine ⟨breakdownEntry logs cat, ?_, rfl, ?_, ?_⟩
  · exact (List.perm_insertionSort _ _).mem_iff.mpr
      (List.mem_map_of_mem (breakdownEntry logs) hcat)
  · simpa [breakdownEntry] using hlen
  · simpa [breakdownEntry] using counts_scenario _ hA hB hall

/-- Witness for C7 at a concrete window: two Off-Task logs for A, one for
B, plus an unrelated positive log. -/
theorem c7_offtask_scenario_witness :
    ∃ e ∈ categoryBreakdown
        [⟨"c1", "Off-Task / Distracted", false⟩, ⟨"c9", "Excellent Participation", true⟩]
        [⟨"s1", "c1", 1, false, "2025-01-01T00:00:00Z", some "A", some "Off-Task / Distracted"⟩,
         ⟨"s2", "c1", 1, false, "2025-01-02T00:00:00Z", some "B", some "Off-Task / Distracted"⟩,
         ⟨"s1", "c1", 1, false, "2025-01-03T00:00:00Z", some "A", some "Off-Task / Distracted"⟩,
         ⟨"s1", "c9", 2, true, "2025-01-03T00:00:00Z", some "A", some "Excellent Participation"⟩],
      e.category = ⟨"c1", "Off-Task / Distracted", false⟩ ∧ e.count = 3 ∧
        e.students = [⟨"A", 2⟩, ⟨"B", 1⟩] :=
  c7_offtask_scenario
    [⟨"c1", "Off-Task / Distracted", false⟩, ⟨"c9", "Excellent Participation", true⟩]
    [⟨"s1", "c1", 1, false, "2025-01-01T00:00:00Z", some "A", some "Off-Task / Distracted"⟩,
     ⟨"s2", "c1", 1, false, "2025-01-02T00:00:00Z", some "B", some "Off-Task / Distracted"⟩,
     ⟨"s1", "c1", 1, false, "2025-01-03T00:00:00Z", some "A", some "Off-Task / Distracted"⟩,
     ⟨"s1", "c9", 2, true, "2025-01-03T00:00:00Z", some "A", some "Excellent Participation"⟩]
    ⟨"c1", "Off-Task / Distracted", false⟩
    (by decide) (by decide) (by decide) (by decide) (by decide) (by decide)

/- Generic positional lemmas about `findIdx` on lists with distinct keys. -/
theorem key_injOn {α : Type} (key : α → String) (l : List α)
    (hn : (l.map key).Nodup) {a b : α} (ha : a ∈ l) (hb : b ∈ l)
    (hk : key a = key b) : a = b := by
  induction l with
  | nil => cases ha
  | cons x t ih =>
    rw [List.map_cons, List.nodup_cons] at hn
    rcases hn with ⟨hx, ht⟩
    rcases List.mem_cons.mp ha with rfl | ha'
    · rcases List.mem_cons.mp hb with rfl | hb'
      · rfl
      · exfalso; apply hx; rw [hk]; exact List.mem_map_of_mem key hb'
    · rcases List.mem_cons.mp hb with rfl | hb'
      · exfalso; apply hx; rw [← hk]; exact List.mem_map_of_mem key ha'
      · exact ih ht ha' hb'

theorem findIdx_lt_of_pairwise {α : Type} (key : α → String) (r : α → α → Prop)
    (l : List α) (hp : l.Pairwise r) (hn : (l.map key).Nodup)
    {a b : α} (ha : a ∈ l) (hb : b ∈ l) (hk : key a ≠ key b) (hr : ¬ r b a) :
    l.findIdx (fun x => key x == key a) < l.findIdx (fun x => key x == key b) := by
  induction l with
  | nil => cases ha
  | cons x t ih =>
    rw [List.map_cons, List.nodup_cons] at hn
    rcases hn with ⟨hx, ht⟩
    rcases List.pairwise_cons.mp hp with ⟨hhead, htail⟩
    by_cases hxa : key x = key a
    · have hxb : key x ≠ key b := by rw [hxa]; exact hk
      have e1 : (key x == key a) = true := by simp [hxa]
      have e2 : (key x == key b) = false := by simp [hxb]
      simp [List.findIdx_cons, e1, e2]
    · have ha' : a ∈ t := by
        rcases List.mem_cons.mp ha with rfl | h
        · exact absurd rfl hxa
        · exact h
      by_cases hxb : key x = key b
      · have hbx : b = x := by
          rcases List.mem_cons.mp hb with rfl | hb'
          · rfl
          · exfalso; apply hx; rw [hxb]; exact List.mem_map_of_mem key hb'
        exact absurd (by rw [hbx]; exact hhead a ha') hr
      · have hb' : b ∈ t := by
          rcases List.mem_cons.mp hb with rfl | h
          · exact absurd rfl hxb
          · exact h
        have e1 : (key x == key a) = false := by simp [hxa]
        have e2 : (key x == key b) = false := by simp [hxb]
        simp only [List.findIdx_cons, e1, e2, cond_false]
        exact Nat.succ_lt_succ (ih htail ht ha' hb')

theorem findIdx_ne_of_key_ne {α : Type} (key : α → String) (l : List α)
    (hn : (l.map key).Nodup) {a b : α} (ha : a ∈ l) (hb : b ∈ l)
    (hk : key a ≠ key b) :
    l.findIdx (fun x => key x == key a) ≠ l.findIdx (fun x => key x == key b) := by
  induction l with
  | nil => cases ha
  | cons x t ih =>
    rw [List.map_cons, List.nodup_cons] at hn
    rcases hn with ⟨hx, ht⟩
    by_cases hxa : key x = key a
    · have hxb : key x ≠ key b := by rw [hxa]; exact hk
      have e1 : (key x == key a) = true := by simp [hxa]
      have e2 : (key x == key b) = false := by simp [hxb]
      simp [List.findIdx_cons, e1, e2]
    · have ha' : a ∈ t := by
        rcases List.mem_cons.mp ha with rfl | h
        · exact absurd rfl hxa
        · exact h
      by_cases hxb : key x = key b
      · have e1 : (key x == key a) = false := by simp [hxa]
        have e2 : (key x == key b) = true := by simp [hxb]
        simp [List.findIdx_cons, e1, e2]
      · have hb' : b ∈ t := by
          rcases List.mem_cons.mp hb with rfl | h
          · exact absurd rfl hxb
          · exact h
        have e1 : (key x == key a) = false := by simp [hxa]
        have e2 : (key x == key b) = false := by simp [hxb]
        simp only [List.findIdx_cons, e1, e2, cond_false]
        exact fun h => ih ht ha' hb' (Nat.succ_injective h)

/-- C2: the class-wide rank is the total order sorting the windowed
entries on positive points descending, ties broken by name ascending;
distinct students get distinct ranks, and the assignment on a fixed
input list is deterministic. -/
theorem c2_rank_total_order (logs : List LogRow) (students : List Student)
    (hids : (students.map (fun s => s.id)).Nodup)
    (a b : RankedStudent)
    (ha : a ∈ allStudentsWithPoints logs students)
    (hb : b ∈ allStudentsWithPoints logs students) :
    (b.positivePoints < a.positivePoints →
      studentRank (allStudentsWithPoints logs students) a.student.id
        < studentRank (allStudentsWithPoints logs students) b.student.id) ∧
    (a.positivePoints = b.positivePoints → a.student.name < b.student.name →
      studentRank (allStudentsWithPoints logs students) a.student.id
        < studentRank (allStudentsWithPoints logs students) b.student.id) ∧
    (a ≠ b →
      studentRank (allStudentsWithPoints logs students) a.student.id
        ≠ studentRank (allStudentsWithPoints logs students) b.student.id) ∧
    (∀ r1 r2 : Nat, r1 = studentRank (allStudentsWithPoints logs students) a.student.id →
      r2 = studentRank (allStudentsWithPoints logs students) a.student.id → r1 = r2) := by
  set xs := allStudentsWithPoints logs students with hxs
  have hkey : (xs.map (fun e => e.student.id)).Nodup := by
    rw [hxs]
    unfold allStudentsWithPoints
    rw [List.map_map]
    simpa using hids
  have hperm : List.Perm (sortedStudents xs) xs := List.perm_insertionSort _ _
  have hp : (sortedStudents xs).Pairwise rankRel := List.sorted_insertionSort rankRel xs
  have hn' : ((sortedStudents xs).map (fun e => e.student.id)).Nodup :=
    ((hperm.map _).nodup_iff).mpr hkey
  have ha' : a ∈ sortedStudents xs := hperm.mem_iff.mpr ha
  have hb' : b ∈ sortedStudents xs := hperm.mem_iff.mpr hb
  have keyne : a ≠ b → a.student.id ≠ b.student.id := by
    intro hab h
    exact hab (key_injOn (fun e => e.student.id) xs hkey ha hb h)
  refine ⟨?_, ?_, ?_, ?_⟩
  · intro hpts
    have hab : a ≠ b := by
      intro h; rw [h] at hpts; exact lt_irrefl _ hpts
    have hr : ¬ rankRel b a := by
      intro h
      rcases h with h | ⟨h, _⟩
      · exact absurd hpts (not_lt.mpr h.le)
      · rw [h] at hpts; exact lt_irrefl _ hpts
    exact Nat.succ_lt_succ
      (findIdx_lt_of_pairwise (fun e => e.student.id) rankRel _ hp hn' ha' hb' (keyne hab) hr)
  · intro hpts hname
    have hab : a ≠ b := by
      intro h; rw [h] at hname; exact lt_irrefl _ hname
    have hr : ¬ rankRel b a := by
      intro h
      rcases h with h | ⟨_, h⟩
      · rw [hpts] at h; exact lt_irrefl _ h
      · exact absurd hname (not_lt.mpr h)
    exact Nat.succ_lt_succ
      (findIdx_lt_of_pairwise (fun e => e.student.id) rankRel _ hp hn' ha' hb' (keyne hab) hr)
  · intro hab
    have h := findIdx_ne_of_key_ne (fun e => e.student.id) (sortedStudents xs) hn' ha' hb'
      (keyne hab)
    intro hc
    exact h (Nat.succ_injective hc)
  · intro r1 r2 h1 h2
    rw [h1, h2]

/-- Witness for C2 on a concrete two-student class. -/
theorem c2_rank_total_order_witness :
    studentRank (allStudentsWithPoints
        [⟨"s1", "c9", 5, true, "2025-01-01T00:00:00Z", some "Zoe", some "Excellent Participation"⟩]
        [⟨"s1", "Zoe", 5, 0⟩, ⟨"s2", "Amy", 0, 0⟩]) "s1"
      < studentRank (allStudentsWithPoints
        [⟨"s1", "c9", 5, true, "2025-01-01T00:00:00Z", some "Zoe", some "Excellent Participation"⟩]
        [⟨"s1", "Zoe", 5, 0⟩, ⟨"s2", "Amy", 0, 0⟩]) "s2" := by
  have h := c2_rank_total_order
    [⟨"s1", "c9", 5, true, "2025-01-01T00:00:00Z", some "Zoe", some "Excellent Participation"⟩]
    [⟨"s1", "Zoe", 5, 0⟩, ⟨"s2", "Amy", 0, 0⟩]
    (by decide)
    ⟨⟨"s1", "Zoe", 5, 0⟩, 5, 0⟩ ⟨⟨"s2", "Amy", 0, 0⟩, 0, 0⟩
    (by decide) (by decide)
  exact h.1 (by decide)

/-- C3: the CSV consists of the two header rows followed by exactly one
body row per student in the fixed column order, and a flag column with no
matching log reads "0"; in particular a student with no logs at all in
the window yields a row whose every flag cell (and points cell) is "0". -/
theorem c3_csv_structure (cn dr : String) (students : List Student)
    (logs : List LogRow) :
    (csvData cn dr students logs).length = students.length + 2 ∧
    csvData cn dr students logs
      = headerRow1 cn :: headerRow2 dr :: students.map (fun s => csvRow s logs) ∧
    (∀ s, ∀ c ∈ flagCategories,
      ((logs.filter (fun l => l.student_id == s.id)).filter
        (fun l => !l.is_positive && l.cat_name != some "Teacher Note"
          && l.cat_name == some c)) = [] →
      toString (csvFlagCount s logs c) = "0") ∧
    (∀ s, logs.filter (fun l => l.student_id == s.id) = [] →
      csvRow s logs = s.name :: "0" :: flagCategories.map (fun _ => "0")) := by
  refine ⟨by simp [csvData, headerRow1, headerRow2], rfl, ?_, ?_⟩
  · intro s c _ h
    unfold csvFlagCount
    rw [h]
    rfl
  · intro s h
    unfold csvRow studentPositivePoints csvFlagCount
    rw [h]
    rfl

/-- Witness for C3: a class of three students with zero logs produces a
five-row CSV whose three body rows have every flag cell "0". -/
theorem c3_csv_structure_witness :
    (csvData "Class A" "All Time" [⟨"s1", "Amy", 0, 0⟩, ⟨"s2", "Ben", 0, 0⟩, ⟨"s3", "Cal", 0, 0⟩]
      []).length = 5 ∧
    csvRow ⟨"s1", "Amy", 0, 0⟩ []
      = "Amy" :: "0" :: flagCategories.map (fun _ => "0") := by
  have h := c3_csv_structure "Class A" "All Time"
    [⟨"s1", "Amy", 0, 0⟩, ⟨"s2", "Ben", 0, 0⟩, ⟨"s3", "Cal", 0, 0⟩] []
  exact ⟨h.1, h.2.2.2 ⟨"s1", "Amy", 0, 0⟩ rfl⟩

/-- C10: a negative non-note log whose joined category name is not one of
the eight hard-coded column names changes no CSV flag column, yet is
counted in the negative total and in its category breakdown entry; all
seeded negative category names except `'Unprepared for Class'` are such
names. -/
theorem c10_csv_exact_name_match (l : LogRow) (logs : List LogRow) (n : String)
    (hneg : l.is_positive = false) (hname : l.cat_name = some n)
    (hnotflag : n ∉ flagCategories) (hnotTN : n ≠ "Teacher Note") :
    (∀ s, ∀ c ∈ flagCategories, csvFlagCount s (l :: logs) c = csvFlagCount s logs c) ∧
    totalNegativePoints (l :: logs) = l.points + totalNegativePoints logs ∧
    (∀ (categories : List Category) (cat : Category), cat.id = l.category_id →
      (logsForCat cat (behavioralAlertLogs (l :: logs))).length
        = (logsForCat cat (behavioralAlertLogs logs)).length + 1 ∧
      (cat ∈ categories → cat.is_positive = false → cat.name = n →
        ∃ e ∈ categoryBreakdown categories (l :: logs), e.category = cat ∧
          e.count = (logsForCat cat (behavioralAlertLogs logs)).length + 1)) ∧
    (∀ m ∈ seededNegativeCategoryNames, m ≠ "Unprepared for Class" →
      m ∉ flagCategories) := by
  have hbeh : behavioralAlertLogs (l :: logs) = l :: behavioralAlertLogs logs := by
    unfold behavioralAlertLogs allNegative
    simp [List.filter_cons, hneg, hname, hnotTN]
  refine ⟨?_, ?_, ?_, by decide⟩
  · intro s c hc
    have hne : n ≠ c := fun h => hnotflag (h ▸ hc)
    unfold csvFlagCount
    by_cases hs : (l.student_id == s.id) = true
    · rw [List.filter_cons]
      simp only [hs, if_true]
      rw [List.filter_cons]
      simp [hneg, hname, hne]
    · rw [List.filter_cons]
      simp [hs]
  · unfold totalNegativePoints
    rw [hbeh, sumPoints_cons]
  · intro categories cat hcid
    have hlen : (logsForCat cat (behavioralAlertLogs (l :: logs))).length
        = (logsForCat cat (behavioralAlertLogs logs)).length + 1 := by
      unfold logsForCat
      rw [hbeh, List.filter_cons]
      simp [hcid]
    refine ⟨hlen, ?_⟩
    intro hmem hcneg hcname
    have hcat : cat ∈ negCats categories := by
      rw [negCats, List.mem_filter]
      refine ⟨hmem, ?_⟩
      have : cat.name ≠ "Teacher Note" := by rw [hcname]; exact hnotTN
      simp [hcneg, this]
    refine ⟨breakdownEntry (l :: logs) cat, ?_, rfl, ?_⟩
    · exact (List.perm_insertionSort _ _).mem_iff.mpr
        (List.mem_map_of_mem (breakdownEntry (l :: logs)) hcat)
    · simpa [breakdownEntry] using hlen

/-- Witness for C10 with the seeded category `'Talking/Disrupting Class'`. -/
theorem c10_csv_exact_name_match_witness :
    csvFlagCount ⟨"s1", "Amy", 0, 0⟩
      [⟨"s1", "c5", 1, false, "2025-01-01T00:00:00Z", some "Amy", some "Talking/Disrupting Class"⟩]
      "Off-Task / Distracted" = 0 ∧
    totalNegativePoints
      [⟨"s1", "c5", 1, false, "2025-01-01T00:00:00Z", some "Amy", some "Talking/Disrupting Class"⟩]
      = 1 := by
  have h := c10_csv_exact_name_match
    ⟨"s1", "c5", 1, false, "2025-01-01T00:00:00Z", some "Amy", some "Talking/Disrupting Class"⟩
    [] "Talking/Disrupting Class" rfl rfl (by decide) (by decide)
  constructor
  · rw [h.1 ⟨"s1", "Amy", 0, 0⟩ "Off-Task / Distracted" (by decide)]
    decide
  · rw [h.2.1]
    decide

/-- C6: `dailyData` has exactly seven entries, the k-th standing for the
calendar day six-minus-k days before today (so ascending, ending today),
and each entry sums the points of the non-note positive (respectively
negative) logs whose timestamp falls on that day. -/
theorem c6_daily_trend (dayKey dayLabel : Nat → String) (logs : List LogRow)
    (hTN : ∀ l ∈ logs, l.cat_name = some "Teacher Note" → l.is_positive = false) :
    (dailyData dayKey dayLabel logs).length = 7 ∧
    dailyData dayKey dayLabel logs = (List.range 7).map (fun k =>
      { date := dayLabel (6 - k),
        positive := sumPoints (logs.filter (fun l =>
          l.is_positive && l.cat_name != some "Teacher Note"
            && l.created_at.startsWith (dayKey (6 - k)))),
        negative := sumPoints (logs.filter (fun l =>
          (!l.is_positive) && l.cat_name != some "Teacher Note"
            && l.created_at.startsWith (dayKey (6 - k)))) }) := by
  constructor
  · simp [dailyData]
  unfold dailyData
  apply List.map_congr_left
  intro k _
  have hflat : ∀ p : LogRow → Bool,
      ((positiveLogs logs ++ behavioralAlertLogs logs).filter
        (fun l => l.created_at.startsWith (dayKey (6 - k)))).filter p
      = (logs.filter (fun a => p a
            && (a.created_at.startsWith (dayKey (6 - k)) && a.is_positive)))
        ++ (logs.filter (fun a => p a
            && (a.created_at.startsWith (dayKey (6 - k))
              && (a.cat_name != some "Teacher Note" && !a.is_positive)))) := by
    intro p
    unfold positiveLogs behavioralAlertLogs allNegative
    simp only [List.filter_append, List.filter_filter]
  simp only [DailyEntry.mk.injEq]
  refine ⟨trivial, ?_, ?_⟩
  · -- positive field
    rw [hflat, sumPoints_append]
    have h2 : logs.filter (fun a => a.is_positive
        && (a.created_at.startsWith (dayKey (6 - k))
          && (a.cat_name != some "Teacher Note" && !a.is_positive))) = [] := by
      apply List.filter_eq_nil_iff.mpr
      intro a _
      cases h : a.is_positive <;> simp [h]
    rw [h2]
    simp only [sumPoints, List.foldl_nil, add_zero]
    congr 1
    apply List.filter_congr
    intro a hmem
    cases h : a.is_positive
    · simp [h]
    · have hTNa : (a.cat_name != some "Teacher Note") = true := by
        rw [bne_iff_ne]
        intro hc
        rw [hTN a hmem hc] at h
        cases h
      simp [h, hTNa]
  · -- negative field
    rw [hflat, sumPoints_append]
    have h1 : logs.filter (fun a => (!a.is_positive)
        && (a.created_at.startsWith (dayKey (6 - k)) && a.is_positive)) = [] := by
      apply List.filter_eq_nil_iff.mpr
      intro a _
      cases h : a.is_positive <;> simp [h]
    rw [h1]
    simp only [sumPoints, List.foldl_nil, zero_add]
    congr 1
    apply List.filter_congr
    intro a _
    cases h : a.is_positive
    · by_cases hc : a.cat_name = some "Teacher Note"
      · simp [h, hc]
      · simp [h, hc, Bool.and_comm]
    · simp [h]

/-- Witness for C6 with one positive log falling on the final (today)
bucket. -/
theorem c6_daily_trend_witness :
    (dailyData (fun i => if i = 0 then "2025-01-07" else "2025-01-0" ++ toString (7 - i))
      (fun _ => "Day")
      [⟨"s1", "c9", 4, true, "2025-01-07T10:00:00Z", some "Amy", some "Excellent Participation"⟩]).length
      = 7 := by
  have h := c6_daily_trend
    (fun i => if i = 0 then "2025-01-07" else "2025-01-0" ++ toString (7 - i))
    (fun _ => "Day")
    [⟨"s1", "c9", 4, true, "2025-01-07T10:00:00Z", some "Amy", some "Excellent Participation"⟩]
    (by decide)
  exact h.1

/-- C4: a positive value selection immediately inserts exactly one
positive-category log and returns to idle; a negative selection inserts
nothing and opens the category modal, and only the explicit category
choice inserts the single negative log; the note path inserts exactly one
zero-point `'Teacher Note'` log carrying the text; cancel from any state
inserts nothing and resets to idle. -/
theorem c4_point_award_flow (dpc tn : Category)
    (hdpc : dpc.is_positive = true) (htn : tn.name = "Teacher Note") :
    (∀ (s : Student) (logs : List NewLog) (pts : Int),
      trackStep dpc tn ⟨.pointModal s, logs⟩ (.selectPoints pts true)
        = ⟨.idle, logs ++ [⟨s.id, dpc.id, pts, true, none⟩]⟩ ∧
      dpc.is_positive = true) ∧
    (∀ (s : Student) (logs : List NewLog) (pts : Int),
      trackStep dpc tn ⟨.pointModal s, logs⟩ (.selectPoints pts false)
        = ⟨.categoryModal s pts, logs⟩) ∧
    (∀ (s : Student) (logs : List NewLog) (pts : Int) (c : Category),
      trackStep dpc tn ⟨.categoryModal s pts, logs⟩ (.selectCategory c)
        = ⟨.idle, logs ++ [⟨s.id, c.id, pts, false, none⟩]⟩) ∧
    (∀ (s : Student) (logs : List NewLog) (text : String), jsTrim text ≠ "" →
      trackStep dpc tn ⟨.noteModal s, logs⟩ (.saveNote text)
        = ⟨.idle, logs ++ [⟨s.id, tn.id, 0, false, some (jsTrim text)⟩]⟩ ∧
      tn.name = "Teacher Note") ∧
    (∀ (ui : UIState) (logs : List NewLog),
      trackStep dpc tn ⟨ui, logs⟩ .cancel = ⟨.idle, logs⟩) := by
  refine ⟨fun s logs pts => ⟨by simp [trackStep], hdpc⟩,
    fun s logs pts => by simp [trackStep],
    fun s logs pts c => rfl,
    fun s logs text ht => ⟨by simp [trackStep, ht], htn⟩,
    fun ui logs => ?_⟩
  cases ui <;> rfl

/-- Witness for C4 with concrete categories and a concrete note text. -/
theorem c4_point_award_flow_witness :
    trackStep ⟨"cp", "Excellent Participation", true⟩ ⟨"ct", "Teacher Note", false⟩
      ⟨.pointModal ⟨"s1", "Amy", 0, 0⟩, []⟩ (.selectPoints 5 true)
      = ⟨.idle, [⟨"s1", "cp", 5, true, none⟩]⟩ ∧
    trackStep ⟨"cp", "Excellent Participation", true⟩ ⟨"ct", "Teacher Note", false⟩
      ⟨.noteModal ⟨"s1", "Amy", 0, 0⟩, []⟩ (.saveNote " hi ")
      = ⟨.idle, [⟨"s1", "ct", 0, false, some "hi"⟩]⟩ := by
  have h := c4_point_award_flow ⟨"cp", "Excellent Participation", true⟩
    ⟨"ct", "Teacher Note", false⟩ rfl rfl
  constructor
  · exact (h.1 ⟨"s1", "Amy", 0, 0⟩ [] 5).1
  · have h4 := (h.2.2.2.1 ⟨"s1", "Amy", 0, 0⟩ [] " hi " (by decide)).1
    simpa using h4

theorem dbSumPoints_eq_sum_map (ls : List DBLog) :
    dbSumPoints ls = (ls.map (fun l => l.points)).sum := by
  have h : ∀ (t : List DBLog) (s : Int),
      t.foldl (fun a l => a + l.points) s = s + (t.map (fun l => l.points)).sum := by
    intro t
    induction t with
    | nil => simp
    | cons x xs ih => intro s; simp [List.foldl_cons, ih, add_assoc]
  simpa using h ls 0

theorem dbSumPoints_append (xs ys : List DBLog) :
    dbSumPoints (xs ++ ys) = dbSumPoints xs + dbSumPoints ys := by
  simp [dbSumPoints_eq_sum_map]

theorem dbSumPoints_filter_split (ls : List DBLog) (p : DBLog → Bool) (lid : String) :
    dbSumPoints (ls.filter p)
      = dbSumPoints ((ls.filter (fun l => l.id == lid)).filter p)
        + dbSumPoints ((ls.filter (fun l => l.id != lid)).filter p) := by
  induction ls with
  | nil => simp [dbSumPoints]
  | cons x t ih =>
    by_cases hx : x.id = lid <;> by_cases hp : p x = true <;>
      simp [List.filter_cons, hx, hp, dbSumPoints_eq_sum_map, bne] at ih ⊢ <;> omega

theorem applyInsertTrigger_eq (l : DBLog) (students : List StudentRow) :
    applyInsertTrigger l students
      = students.map (fun s =>
          { s with
            total_positive_points := s.total_positive_points
              + dbSumPoints ([l].filter (fun x => x.student_id == s.id && x.is_positive)),
            total_negative_points := s.total_negative_points
              + dbSumPoints ([l].filter (fun x => x.student_id == s.id && !x.is_positive)) }) := by
  unfold applyInsertTrigger
  apply List.map_congr_left
  intro s _
  by_cases hid : s.id = l.student_id
  · have hb : (l.student_id == s.id) = true := by simp [hid]
    by_cases hpos : l.is_positive = true <;>
      simp [hid, hpos, hb, List.filter_cons, dbSumPoints]
  · have hb : (l.student_id == s.id) = false := by
      simp only [beq_eq_false_iff_ne]
      exact fun hx => hid hx.symm
    simp [hid, hb, List.filter_cons, dbSumPoints]

theorem consistent_insertLog (db : DB) (l : DBLog) (h : consistent db) :
    consistent (insertLog db l) := by
  intro s hs
  unfold insertLog at hs
  rw [applyInsertTrigger_eq] at hs
  rcases List.mem_map.mp hs with ⟨s0, hs0, rfl⟩
  rcases h s0 hs0 with ⟨hp, hn⟩
  constructor
  · show s0.total_positive_points
        + dbSumPoints ([l].filter (fun x => x.student_id == s0.id && x.is_positive))
      = dbSumPoints ((db.logs ++ [l]).filter
          (fun x => x.student_id == s0.id && x.is_positive))
    rw [List.filter_append, dbSumPoints_append, hp]
  · show s0.total_negative_points
        + dbSumPoints ([l].filter (fun x => x.student_id == s0.id && !x.is_positive))
      = dbSumPoints ((db.logs ++ [l]).filter
          (fun x => x.student_id == s0.id && !x.is_positive))
    rw [List.filter_append, dbSumPoints_append, hn]

theorem foldl_applyDeleteTrigger (rem : List DBLog) (students : List StudentRow) :
    rem.foldl (fun ss l => applyDeleteTrigger l ss) students
      = students.map (fun s =>
          { s with
            total_positive_points := s.total_positive_points
              - dbSumPoints (rem.filter (fun x => x.student_id == s.id && x.is_positive)),
            total_negative_points := s.total_negative_points
              - dbSumPoints (rem.filter (fun x => x.student_id == s.id && !x.is_positive)) }) := by
  induction rem generalizing students with
  | nil => simp [dbSumPoints]
  | cons x t ih =>
    rw [List.foldl_cons, ih]
    unfold applyDeleteTrigger
    rw [List.map_map]
    apply List.map_congr_left
    intro s _
    by_cases hid : s.id = x.student_id
    · have hb : (x.student_id == s.id) = true := by simp [hid]
      by_cases hpos : x.is_positive = true <;>
        simp [Function.comp, hid, hpos, hb, List.filter_cons,
          dbSumPoints_eq_sum_map] <;> omega
    · have hb : (x.student_id == s.id) = false := by
        simp only [beq_eq_false_iff_ne]
        exact fun hx => hid hx.symm
      simp [Function.comp, hid, hb, List.filter_cons]

theorem consistent_deleteLog (db : DB) (lid : String) (h : consistent db) :
    consistent (deleteLog db lid) := by
  intro s hs
  unfold deleteLog at hs
  rw [foldl_applyDeleteTrigger] at hs
  rcases List.mem_map.mp hs with ⟨s0, hs0, rfl⟩
  rcases h s0 hs0 with ⟨hp, hn⟩
  constructor
  · have hsplit := dbSumPoints_filter_split db.logs
      (fun x => x.student_id == s0.id && x.is_positive) lid
    rw [hsplit] at hp
    show s0.total_positive_points
        - dbSumPoints ((db.logs.filter (fun l => l.id == lid)).filter
            (fun x => x.student_id == s0.id && x.is_positive))
      = dbSumPoints ((db.logs.filter (fun l => l.id != lid)).filter
            (fun x => x.student_id == s0.id && x.is_positive))
    omega
  · have hsplit := dbSumPoints_filter_split db.logs
      (fun x => x.student_id == s0.id && !x.is_positive) lid
    rw [hsplit] at hn
    show s0.total_negative_points
        - dbSumPoints ((db.logs.filter (fun l => l.id == lid)).filter
            (fun x => x.student_id == s0.id && !x.is_positive))
      = dbSumPoints ((db.logs.filter (fun l => l.id != lid)).filter
            (fun x => x.student_id == s0.id && !x.is_positive))
    omega

/-- C8: starting from any consistent state, every sequence of
`participation_logs` inserts and deletes — each firing the
`update_student_points` trigger — leaves every student row holding
exactly the per-sign sums of its remaining log rows; the counters are
maintained by the trigger alone, never recomputed from the logs. -/
theorem c8_trigger_consistency (db : DB) (ops : List DBOp) (h : consistent db) :
    consistent (applyOps db ops) := by
  induction ops generalizing db with
  | nil => exact h
  | cons op t ih =>
    cases op with
    | ins l => exact ih _ (consistent_insertLog db l h)
    | del lid => exact ih _ (consistent_deleteLog db lid h)

/-- Witness for C8: an insert of 3 positive points followed by an insert
of 2 negative points and a delete of the first log keeps the state
consistent. -/
theorem c8_trigger_consistency_witness :
    consistent (applyOps ⟨[⟨"s1", 0, 0⟩], []⟩
      [.ins ⟨"l1", "s1", 3, true⟩, .ins ⟨"l2", "s1", 2, false⟩, .del "l1"]) :=
  c8_trigger_consistency ⟨[⟨"s1", 0, 0⟩], []⟩
    [.ins ⟨"l1", "s1", 3, true⟩, .ins ⟨"l2", "s1", 2, false⟩, .del "l1"]
    (by decide)

/-- C9 counterexample: a request whose email is present but malformed (no
@ sign) is forwarded to the provider — the handler performs no
email-format validation, so not every validation error is caught before a
network call. -/
theorem c9_malformed_email_reaches_provider :
    (handleFeedbackRequest
        ⟨"POST", .json ⟨some "x", some "notanemail", none, none⟩⟩
        (some "key") true).contactedProvider = true
      ∧ ("notanemail".data.contains '@') = false := by
  constructor
  · rfl
  · decide

/-- C9 (amended): a non-preflight request whose JSON body is missing name
or email gets status 400 with the fixed JSON error body and the CORS
headers, and the provider is not contacted; this presence check is the
only validation before the network call — malformed emails are not
rejected. -/
theorem c9_missing_fields_400 (m : String) (b : FeedbackBody)
    (apiKey : Option String) (providerOk : Bool)
    (hm : (m == "OPTIONS") = false)
    (hmiss : b.name = none ∨ b.email = none) :
    handleFeedbackRequest ⟨m, .json b⟩ apiKey providerOk
      = ⟨⟨400, "\x7b\"error\":\"Name and email are required\"\x7d", jsonHeaders⟩,
          false⟩ := by
  unfold handleFeedbackRequest
  have hf : (falsy b.name || falsy b.email) = true := by
    rcases hmiss with h | h <;> simp [falsy, h]
  simp [hm, hf]

/-- Witness for the amended C9 at a concrete request with no name. -/
theorem c9_missing_fields_400_witness :
    handleFeedbackRequest ⟨"POST", .json ⟨none, some "a@b.c", none, none⟩⟩
      (some "k") true
      = ⟨⟨400, "\x7b\"error\":\"Name and email are required\"\x7d", jsonHeaders⟩,
          false⟩ :=
  c9_missing_fields_400 "POST" ⟨none, some "a@b.c", none, none⟩ (some "k") true
    (by decide) (Or.inl rfl)

end ClassTracker
